import Mathlib

/-!
Shallow embedding of `src/prophet_forecast_script.py` (class `ProphetForecaster`
and the module `main`), together with theorems settling the frozen claims about
the forecasting pipeline.

Modelling conventions:
- Dates are ordinal day numbers (`Nat`); one unit = one calendar day.
- Quantities and every value the script computes with exact arithmetic are
  rationals (`Rat`); machine floats are rationals, so `Rat` is the exact model.
- The single place the script takes a square root (the outlier standard
  deviation in `clean_and_prepare_data`) is modelled over `Real`.
- The external Prophet capability is modelled by its contract only: a fitted
  model is a per-date prediction function producing
  `{yhat, yhat_lower, yhat_upper, trend}` rows.
- The database is an association list keyed by `(user_id, product_id)`;
  psycopg2 failures are oracle booleans; `datetime.now()` results are passed
  explicitly, with later calls receiving later (or equal) timestamps.
- Exceptions are `Except` values; Python `round` is round-half-to-even.
-/

/-- A raw sales record as returned by the `fetch_sales_data` query:
`(product_id, product_name, date, quantity_sold, unit_price)`.
`quantity_sold` is `Option` because the script's `fillna(0)` treats it as
possibly null. -/
structure SalesRecord where
  product_id : Nat
  product_name : String
  date : Nat
  quantity_sold : Option Rat
  unit_price : Rat
deriving DecidableEq, Repr

/-! ## Cleaner (`clean_and_prepare_data`, lines 85-138) -/

/-- `drop_duplicates(subset=['ds'])`: keep the first record for each date, in
input order; `seen` accumulates dates already kept. -/
def dedupFirstAux (seen : List Nat) : List SalesRecord → List SalesRecord
  | [] => []
  | r :: rs =>
    if r.date ∈ seen then dedupFirstAux seen rs
    else r :: dedupFirstAux (r.date :: seen) rs

/-- `drop_duplicates(subset=['ds'])` with pandas' default `keep='first'`. -/
def dedupFirst (l : List SalesRecord) : List SalesRecord := dedupFirstAux [] l

/-- Insert into a list sorted by an ascending `Nat` key, before the first
element whose key is `≥` the inserted key (a stable insertion). -/
def insertLe (key : α → Nat) (r : α) : List α → List α
  | [] => [r]
  | s :: ss => if key r ≤ key s then r :: s :: ss else s :: insertLe key r ss

/-- Ascending insertion sort by a `Nat` key; models `sort_values('ds')`
(after deduplication the dates are unique, so any ascending sort yields this
result) and the ascending key order of pandas `groupby`. -/
def sortByKey (key : α → Nat) (l : List α) : List α := l.foldr (insertLe key) []

/-- Lines 108-109: `drop_duplicates(subset=['ds']).sort_values('ds')`. -/
def dropDuplicatesSortValues (g : List SalesRecord) : List SalesRecord :=
  sortByKey (·.date) (dedupFirst g)

/-- One product group after dedup, sort and `fillna(0)` (lines 104-112):
the `(ds, y)` pairs handed to the rest of the cleaner. -/
def prepGroup (g : List SalesRecord) : List (Nat × Rat) :=
  (dropDuplicatesSortValues g).map (fun r => (r.date, r.quantity_sold.getD 0))

/-- First-occurrence deduplication of a key list (`seen` = keys already kept). -/
def firstOccur (seen : List Nat) : List Nat → List Nat
  | [] => []
  | n :: ns =>
    if n ∈ seen then firstOccur seen ns else n :: firstOccur (n :: seen) ns

/-- The distinct product ids of the input, in the ascending key order pandas
`groupby('product_id')` iterates them in. -/
def groupKeys (recs : List SalesRecord) : List Nat :=
  sortByKey id (firstOccur [] (recs.map (·.product_id)))

/-- `df.groupby('product_id')`: each group keeps the input order of its
records. -/
def groupByProduct (recs : List SalesRecord) : List (Nat × List SalesRecord) :=
  (groupKeys recs).map (fun pid => (pid, recs.filter (fun r => r.product_id == pid)))

/-- Mean of a list of reals (`pandas.Series.mean`); empty-list division is the
Lean convention `x / 0 = 0`, unreachable in the script (the cleaner only
reaches the statistics with `≥ 2` points). -/
noncomputable def listMean (l : List Real) : Real := l.sum / l.length

/-- Sample variance with pandas' default `ddof=1`. For a single point pandas
yields NaN, which fails the `> 0` guard exactly as the `0` here does. -/
noncomputable def sampleVar (l : List Real) : Real :=
  ((l.map (fun y => (y - listMean l) ^ 2)).sum) / ((l.length : Real) - 1)

/-- `pandas.Series.std()` (ddof=1). -/
noncomputable def sampleStd (l : List Real) : Real := Real.sqrt (sampleVar l)

open Classical in
/-- Lines 119-124: if the standard deviation of `y` is positive, cap every
value above `mean + 3*std` down to that threshold (values are replaced, rows
are never dropped). -/
noncomputable def outlierStep (s : List (Nat × Real)) : List (Nat × Real) :=
  let ys := s.map (·.2)
  if sampleStd ys > 0 then
    let thr := listMean ys + 3 * sampleStd ys
    s.map (fun p => (p.1, if p.2 > thr then thr else p.2))
  else s

/-- Cleaning of one product group: dedup/sort/fillna, the `< 2` points guard
(lines 114-117, `none` = the product is skipped with a warning, no error),
then the outlier cap. -/
noncomputable def cleanGroup (g : List SalesRecord) : Option (List (Nat × Real)) :=
  let p := prepGroup g
  if p.length < 2 then none
  else some (outlierStep (p.map (fun q => (q.1, (q.2 : Real)))))

/-- `clean_and_prepare_data`: the per-product cleaned series, keyed by
product id, containing only products that survived the `< 2` points guard. -/
noncomputable def cleanAndPrepareData (recs : List SalesRecord) :
    List (Nat × List (Nat × Real)) :=
  (groupByProduct recs).filterMap (fun g => (cleanGroup g.2).map (fun s => (g.1, s)))

/-! ## ForecastEngine (`train_and_forecast`, lines 140-227) -/

/-- One row of a Prophet prediction frame: the columns the script reads. -/
structure PredRow where
  yhat : Rat
  yhat_lower : Rat
  yhat_upper : Rat
  trend : Rat
deriving DecidableEq, Repr

/-- A fitted Prophet model, by its contract only: `predict` maps each date of
the frame it is given to one prediction row, deterministically. -/
structure Model where
  predictRow : Nat → PredRow

/-- The largest history date (`df['ds'].max()`); `make_future_dataframe`
appends days after it. -/
def lastDate (series : List (Nat × Rat)) : Nat :=
  (series.map (·.1)).foldr max 0

/-- `model.make_future_dataframe(periods=H, freq='D')`: the history dates
followed by the next `H` calendar days. -/
def makeFutureDataframe (series : List (Nat × Rat)) (H : Nat) : List Nat :=
  series.map (·.1) ++ (List.range H).map (fun i => lastDate series + (i + 1))

/-- `model.predict(frame)`: one row per date of the frame. -/
def predictAll (m : Model) (dates : List Nat) : List PredRow :=
  dates.map m.predictRow

/-- `DataFrame.tail(n)`: the last `n` rows (all rows when `n` exceeds the
length). -/
def pdTail (n : Nat) (l : List α) : List α := l.drop (l.length - n)

/-- `DataFrame.head(n)`: the first `n` rows. -/
def pdHead (n : Nat) (l : List α) : List α := l.take n

/-- The prediction rows of exactly the `H` future days that
`make_future_dataframe` appends after the history (the spec's "appended `H`
future days"). -/
def appendedFutureRows (m : Model) (series : List (Nat × Rat)) (H : Nat) :
    List PredRow :=
  ((List.range H).map (fun i => lastDate series + (i + 1))).map m.predictRow

/-- Python 3 `round` on an exact value: round half to even. -/
def pyRound (q : Rat) : Int :=
  if q - ⌊q⌋ < 1 / 2 then ⌊q⌋
  else if 1 / 2 < q - ⌊q⌋ then ⌊q⌋ + 1
  else if ⌊q⌋ % 2 = 0 then ⌊q⌋ else ⌊q⌋ + 1

/-- A `forecasts[f'forecast_{period}d']` payload entry (lines 187-191). -/
structure HorizonRes where
  value : Int
  lower_bound : Int
  upper_bound : Int
deriving DecidableEq, Repr

/-- One iteration of the per-period loop (lines 170-193): predict over the
extended frame, take the last `H` rows, sum, clip and round as the script
does (`max(0, ...)` before `round` for the point estimate, after `round` for
the lower bound, no clip for the upper bound). -/
def horizonEntry (m : Model) (series : List (Nat × Rat)) (H : Nat) : HorizonRes :=
  let future := makeFutureDataframe series H
  let forecast := predictAll m future
  let future_forecast := pdTail H forecast
  let total_forecast := max 0 ((future_forecast.map (·.yhat)).sum)
  let lower_bound := (future_forecast.map (·.yhat_lower)).sum
  let upper_bound := (future_forecast.map (·.yhat_upper)).sum
  { value := pyRound total_forecast
    lower_bound := max 0 (pyRound lower_bound)
    upper_bound := pyRound upper_bound }

/-- Mean of a list of rationals (`Series.mean` / `np.mean`); `0` on the empty
list (unreachable: the pipeline only forecasts series with `≥ 2` points). -/
def listMeanQ (l : List Rat) : Rat := l.sum / l.length

/-- Line 211: `max(0.3, min(0.95, 1 - (mape / 100)))`. -/
def confidenceScore (mape : Rat) : Rat :=
  max (3 / 10) (min (19 / 20) (1 - mape / 100))

/-- The result dictionary of `train_and_forecast` (lines 213-219). -/
structure FRes where
  forecasts : List (Nat × HorizonRes)
  trend_status : String
  confidence_score : Rat
  mae : Rat
  mape : Rat
deriving DecidableEq, Repr

/-- Lines 201-208 applied to a prediction frame: mean trend of the last 30
rows minus mean trend of the first 30 rows, classified with the `0.1`
thresholds. -/
def trendStatusOf (fc : List PredRow) : String :=
  let recent_trend :=
    listMeanQ ((pdTail 30 fc).map (·.trend)) - listMeanQ ((pdHead 30 fc).map (·.trend))
  if recent_trend > 1 / 10 then "trending"
  else if recent_trend < -(1 / 10) then "declining"
  else "stable"

/-- `train_and_forecast(product_data, forecast_periods)`: the per-period
forecasts, in-sample MAE and MAPE (with the `np.maximum(y, 1)` guard), the
trend classification taken from the loop variable `forecast` — i.e. from the
prediction of the **last** period of `forecast_periods` — and the clamped
confidence score. `none` models the `NameError` on `forecast` when
`forecast_periods` is empty (the loop never ran). -/
def trainAndForecast (m : Model) (series : List (Nat × Rat))
    (periods : List Nat) : Option FRes :=
  match periods.getLast? with
  | none => none
  | some lastP =>
    let forecasts := periods.map (fun H => (H, horizonEntry m series H))
    let inSample := predictAll m (series.map (·.1))
    let pairs := (series.map (·.2)).zip (inSample.map (·.yhat))
    let mae := listMeanQ (pairs.map (fun p => |p.1 - p.2|))
    let mape := listMeanQ (pairs.map (fun p => |(p.1 - p.2) / max p.1 1|)) * 100
    let fc := predictAll m (makeFutureDataframe series lastP)
    some { forecasts := forecasts
           trend_status := trendStatusOf fc
           confidence_score := confidenceScore mape
           mae := mae
           mape := mape }

/-! ## ResultStore (`save_forecasts_to_database`, lines 229-280) -/

/-- A row of the `forecast_data` table (the columns the INSERT writes).
Timestamps are integer seconds. -/
structure DbRow where
  forecast_7d : Int
  forecast_30d : Int
  forecast_90d : Int
  forecast_365d : Int
  trend_status : String
  confidence_score : Rat
  generated_at : Int
  expires_at : Int
deriving DecidableEq, Repr

/-- The `forecast_data` table: one entry per `(user_id, product_id)` write,
in insertion order. -/
abbrev Store := List (String × Nat × DbRow)

/-- The error taxonomy visible to the pipeline: per-product model failures,
per-product write failures (`keyDbError` models a missing
`forecast_{p}d` key, `writeDbError` a psycopg2 execute/commit failure), and
fatal connect/fetch failures. -/
inductive PErr where
  | forecastFailed
  | keyDbError
  | writeDbError
  | connectFailed
  | fetchFailed
deriving DecidableEq, Repr

/-- Whether a store entry is keyed by `(uid, pid)` (the WHERE clause of the
DELETE). -/
def keyMatches (uid : String) (pid : Nat) (e : String × Nat × DbRow) : Bool :=
  e.1 == uid && e.2.1 == pid

/-- `save_forecasts_to_database(user_id, product_id, forecasts_data)`.
`t1` is the `datetime.now()` of line 257 (used for `expires_at`), `t2` the
`datetime.now()` of line 268 (`generated_at`); `dbFail` is the oracle for a
psycopg2 failure of execute/commit. The DELETE and INSERT run in one
transaction: on any failure — a missing `forecast_{p}d` key in
`forecasts_data` included — the transaction is rolled back and the error is
re-raised, so an error leaves the caller's store unchanged; on success the
returned store reflects both statements. -/
def saveForecastsToDatabase (store : Store) (uid : String) (pid : Nat)
    (fr : FRes) (t1 t2 : Int) (dbFail : Bool) : Except PErr Store :=
  match fr.forecasts.lookup 7, fr.forecasts.lookup 30,
        fr.forecasts.lookup 90, fr.forecasts.lookup 365 with
  | some f7, some f30, some f90, some f365 =>
    if dbFail then .error .writeDbError
    else .ok ((store.filter (fun e => !keyMatches uid pid e)) ++
      [(uid, pid,
        { forecast_7d := f7.value
          forecast_30d := f30.value
          forecast_90d := f90.value
          forecast_365d := f365.value
          trend_status := fr.trend_status
          confidence_score := fr.confidence_score
          generated_at := t2
          expires_at := t1 + 86400 })])
  | _, _, _, _ => .error .keyDbError

/-! ## Orchestrator (`run_forecasting_for_user`, lines 282-336, and `main`) -/

/-- The per-product environment of one `save_forecasts_to_database` call:
its two `datetime.now()` samples and its write-failure oracle. -/
structure SaveEnv where
  t1 : Int
  t2 : Int
  dbFail : Bool

/-- The abstract outcome of `train_and_forecast` for one product: Prophet is
an external capability, so fitting is an oracle from the product id and its
cleaned series to either a result dictionary or a raised error. -/
abbrev FitOracle := Nat → List (Nat × Real) → Except PErr FRes

/-- One iteration of the per-product loop (lines 313-327): train, save, count
on success; on any exception log `(product_id, error)` and continue with the
state unchanged. The accumulator is `(store, error log, successful_count)`. -/
def runLoopStep (uid : String) (ffn : FitOracle) (env : Nat → SaveEnv)
    (acc : Store × List (Nat × PErr) × Nat) (p : Nat × List (Nat × Real)) :
    Store × List (Nat × PErr) × Nat :=
  match ffn p.1 p.2 with
  | .error e => (acc.1, acc.2.1 ++ [(p.1, e)], acc.2.2)
  | .ok fr =>
    match saveForecastsToDatabase acc.1 uid p.1 fr (env p.1).t1 (env p.1).t2
        (env p.1).dbFail with
    | .error e => (acc.1, acc.2.1 ++ [(p.1, e)], acc.2.2)
    | .ok st' => (st', acc.2.1, acc.2.2 + 1)

/-- `run_forecasting_for_user(user_id)`. `fetched` is the combined outcome of
`connect_to_database` and `fetch_sales_data` (fatal errors there propagate).
Empty input or an empty cleaning result returns early with a warning
(`none` run summary). Otherwise the loop runs over every cleaned product and
the result carries the final store, the per-product error log, and
`(total_products, successful_forecasts)`. -/
noncomputable def runForecastingForUser (uid : String)
    (fetched : Except PErr (List SalesRecord)) (ffn : FitOracle)
    (env : Nat → SaveEnv) (store : Store) :
    Except PErr (Store × List (Nat × PErr) × Option (Nat × Nat)) :=
  match fetched with
  | .error e => .error e
  | .ok recs =>
    if recs.isEmpty then .ok (store, [], none)
    else
      let cleaned := cleanAndPrepareData recs
      if cleaned.isEmpty then .ok (store, [], none)
      else
        let res := cleaned.foldl (runLoopStep uid ffn env) (store, [], 0)
        .ok (res.1, res.2.1, some (cleaned.length, res.2.2))

/-- `main()` for a well-formed command line: exit code 0 when
`run_forecasting_for_user` returns (a success message is printed even after
per-product failures), exit code 1 when it raises. -/
noncomputable def mainExitCode (uid : String)
    (fetched : Except PErr (List SalesRecord)) (ffn : FitOracle)
    (env : Nat → SaveEnv) (store : Store) : Nat :=
  match runForecastingForUser uid fetched ffn env store with
  | .ok _ => 0
  | .error _ => 1

/-- Whether one product's train-and-save both succeed, reading only that
product's data (saving succeeds iff the four horizon keys are present and the
write oracle does not fail — independent of the store). -/
def productSucceeds (ffn : FitOracle) (env : Nat → SaveEnv)
    (p : Nat × List (Nat × Real)) : Bool :=
  match ffn p.1 p.2 with
  | .error _ => false
  | .ok fr =>
    (fr.forecasts.lookup 7).isSome && (fr.forecasts.lookup 30).isSome &&
    (fr.forecasts.lookup 90).isSome && (fr.forecasts.lookup 365).isSome &&
    !(env p.1).dbFail

/-- The log entry a product contributes: its error, if it fails. -/
def productFailure (ffn : FitOracle) (env : Nat → SaveEnv)
    (p : Nat × List (Nat × Real)) : Option (Nat × PErr) :=
  match ffn p.1 p.2 with
  | .error e => some (p.1, e)
  | .ok fr =>
    match fr.forecasts.lookup 7, fr.forecasts.lookup 30,
          fr.forecasts.lookup 90, fr.forecasts.lookup 365 with
    | some _, some _, some _, some _ =>
      if (env p.1).dbFail then some (p.1, .writeDbError) else none
    | _, _, _, _ => some (p.1, .keyDbError)

/-! ## Spec-side definition and concrete inputs -/

/-- Spec-side (§4.1 / §8) characterisation of "the group's records sorted in
ascending date order" with the deterministic stable policy the spec fixes:
`s` is sorted by date, and for each date the records carrying it appear in
`s` in their original relative order (so they filter to the same sublist).
This follows the spec's words; the source-side computation it is compared
with is `dropDuplicatesSortValues`. -/
def IsStableSortByDate (g s : List SalesRecord) : Prop :=
  s.Pairwise (fun a b => a.date ≤ b.date) ∧
  ∀ d : Nat, s.filter (fun r => r.date == d) = g.filter (fun r => r.date == d)

/-- Three products with two distinct dates each (all quantities present). -/
def recsThree : List SalesRecord :=
  [⟨1, "A", 0, some 1, 0⟩, ⟨1, "A", 1, some 2, 0⟩,
   ⟨2, "B", 0, some 1, 0⟩, ⟨2, "B", 1, some 2, 0⟩,
   ⟨3, "C", 0, some 1, 0⟩, ⟨3, "C", 1, some 2, 0⟩]

/-- A forecast payload carrying all four horizon keys. -/
def frFull : FRes :=
  { forecasts := [(7, ⟨5, 1, 9⟩), (30, ⟨20, 4, 36⟩), (90, ⟨60, 12, 108⟩),
      (365, ⟨240, 48, 432⟩)]
    trend_status := "stable"
    confidence_score := 1 / 2
    mae := 0
    mape := 0 }

/-- A second, different forecast payload for the same product. -/
def frFull2 : FRes :=
  { forecasts := [(7, ⟨6, 2, 10⟩), (30, ⟨21, 5, 37⟩), (90, ⟨61, 13, 109⟩),
      (365, ⟨241, 49, 433⟩)]
    trend_status := "trending"
    confidence_score := 3 / 4
    mae := 1
    mape := 2 }

/-- A fitting oracle that raises exactly for product 2. -/
def ffnFailSecond : FitOracle :=
  fun pid _ => if pid = 2 then .error .forecastFailed else .ok frFull

/-- A write environment with no database failures, both clock samples 0. -/
def envNoFail : Nat → SaveEnv := fun _ => ⟨0, 0, false⟩

/-- Product 1 has a single date (fewer than 2 cleaned points), product 2 has
two. -/
def recsSkip : List SalesRecord :=
  [⟨1, "A", 0, some 5, 0⟩, ⟨2, "B", 0, some 1, 0⟩, ⟨2, "B", 1, some 2, 0⟩]

/-- One product group with a duplicated date, records out of date order:
date 2 occurs twice (quantities 5 then 7) around a date-1 record. -/
def gDup : List SalesRecord :=
  [⟨1, "A", 2, some 5, 0⟩, ⟨1, "A", 1, some 3, 0⟩, ⟨1, "A", 2, some 7, 0⟩]

/-- A two-point group whose quantities are negative. -/
def recsNeg : List SalesRecord :=
  [⟨1, "A", 0, some (-1), 0⟩, ⟨1, "A", 1, some (-1), 0⟩]

/-- A concrete cleaned series for the outlier step: values 0, 3, 6
(mean 3, sample variance 9, standard deviation 3). -/
noncomputable def tOut : List (Nat × Real) := [(0, 0), (1, 3), (2, 6)]

/-- A model predicting the zero row for every date. -/
def constModel : Model := ⟨fun _ => ⟨0, 0, 0, 0⟩⟩

/-- A minimal two-point training series. -/
def twoPointSeries : List (Nat × Rat) := [(0, 1), (1, 2)]

/-! ## Generic list lemmas -/

lemma find?_eq_head_filter (p : α → Bool) (l : List α) :
    l.find? p = (l.filter p).head? := by
  induction l with
  | nil => rfl
  | cons a l ih =>
    by_cases h : p a = true
    · rw [List.find?_cons_of_pos _ h, List.filter_cons_of_pos h, List.head?_cons]
    · rw [List.find?_cons_of_neg _ h, List.filter_cons_of_neg h, ih]

lemma length_filterMap_eq_countP (f : α → Option β) (l : List α) :
    (l.filterMap f).length = l.countP (fun a => (f a).isSome) := by
  induction l with
  | nil => rfl
  | cons a l ih =>
    rw [List.countP_cons]
    cases h : f a <;> simp [List.filterMap_cons, h, ih, List.countP_cons]

lemma lookup_isSome_iff_mem (k : Nat) (l : List (Nat × β)) :
    (List.lookup k l).isSome ↔ k ∈ l.map Prod.fst := by
  induction l with
  | nil => simp [List.lookup]
  | cons a l ih =>
    by_cases h : k = a.1
    · simp [List.lookup, h]
    · have : (k == a.1) = false := by simpa using h
      simp [List.lookup, this, ih, h]

lemma filter_of_filter_not (p : α → Bool) (l : List α) :
    (l.filter (fun a => !p a)).filter p = [] := by
  induction l with
  | nil => rfl
  | cons a l ih =>
    by_cases h : p a = true
    · simp [List.filter_cons, h, ih]
    · simp at h
      simp [List.filter_cons, h, ih]

/-! ## `pyRound` lemmas -/

lemma pyRound_nonneg (q : Rat) (hq : 0 ≤ q) : 0 ≤ pyRound q := by
  have hf : (0 : Int) ≤ ⌊q⌋ := Int.floor_nonneg.mpr hq
  unfold pyRound
  split
  · exact hf
  · split
    · omega
    · split <;> omega

lemma pyRound_nonpos (q : Rat) (hq : q ≤ 0) : pyRound q ≤ 0 := by
  have hf : ⌊q⌋ ≤ 0 := by
    calc ⌊q⌋ ≤ ⌊(0 : Rat)⌋ := Int.floor_le_floor hq
    _ = 0 := by norm_num
  unfold pyRound
  split
  · exact hf
  · rename_i hlt
    have hr : (1 : Rat) / 2 ≤ q - ⌊q⌋ := le_of_not_lt hlt
    have hfne : ⌊q⌋ ≠ 0 := by
      intro h0
      rw [h0] at hr
      push_cast at hr
      nlinarith
    split
    · omega
    · split <;> omega

lemma pyRound_zero : pyRound 0 = 0 := by
  unfold pyRound
  norm_num

lemma max_zero_pyRound (q : Rat) : max 0 (pyRound q) = pyRound (max 0 q) := by
  rcases le_total q 0 with h | h
  · rw [max_eq_left h, pyRound_zero, max_eq_left (pyRound_nonpos q h)]
  · rw [max_eq_right h, max_eq_right (pyRound_nonneg q h)]

lemma abs_pyRound_sub_le (q : Rat) : |(pyRound q : Rat) - q| ≤ 1 / 2 := by
  have h0 : (⌊q⌋ : Rat) ≤ q := Int.floor_le q
  have h1 : q < (⌊q⌋ : Rat) + 1 := Int.lt_floor_add_one q
  rw [abs_le]
  unfold pyRound
  split
  · rename_i hlt
    constructor <;> push_cast <;> linarith
  · rename_i hlt
    have hr : (1 : Rat) / 2 ≤ q - ⌊q⌋ := le_of_not_lt hlt
    split
    · rename_i hgt
      constructor <;> push_cast <;> linarith
    · rename_i hgt
      have hr2 : q - ⌊q⌋ ≤ 1 / 2 := le_of_not_lt hgt
      split <;> constructor <;> push_cast <;> linarith

/-! ## Insertion sort and deduplication lemmas -/

lemma perm_insertLe (key : α → Nat) (r : α) (l : List α) :
    List.Perm (insertLe key r l) (r :: l) := by
  induction l with
  | nil => exact List.Perm.refl _
  | cons s ss ih =>
    unfold insertLe
    split
    · exact List.Perm.refl _
    · exact List.Perm.trans (ih.cons s) (List.Perm.swap r s ss)

lemma perm_sortByKey (key : α → Nat) (l : List α) :
    List.Perm (sortByKey key l) l := by
  induction l with
  | nil => exact List.Perm.refl _
  | cons a l ih =>
    exact List.Perm.trans (perm_insertLe key a (sortByKey key l)) (ih.cons a)

lemma mem_sortByKey (key : α → Nat) (l : List α) (a : α) :
    a ∈ sortByKey key l ↔ a ∈ l := (perm_sortByKey key l).mem_iff

lemma pairwise_insertLe {key : α → Nat} {r : α} {l : List α}
    (h : l.Pairwise (fun a b => key a ≤ key b)) :
    (insertLe key r l).Pairwise (fun a b => key a ≤ key b) := by
  induction l with
  | nil => simp [insertLe]
  | cons s ss ih =>
    rw [List.pairwise_cons] at h
    unfold insertLe
    split
    · rename_i hle
      rw [List.pairwise_cons]
      refine ⟨fun b hb => ?_, List.pairwise_cons.mpr h⟩
      rcases List.mem_cons.mp hb with rfl | hb
      · exact hle
      · exact le_trans hle (h.1 b hb)
    · rename_i hgt
      rw [List.pairwise_cons]
      refine ⟨fun b hb => ?_, ih h.2⟩
      rcases List.mem_cons.mp ((perm_insertLe key r ss).mem_iff.mp hb) with rfl | hb'
      · exact le_of_not_le hgt
      · exact h.1 b hb'

lemma pairwise_sortByKey (key : α → Nat) (l : List α) :
    (sortByKey key l).Pairwise (fun a b => key a ≤ key b) := by
  induction l with
  | nil => exact List.Pairwise.nil
  | cons a l ih => exact pairwise_insertLe ih

lemma filter_insertLe_of_eq {key : α → Nat} {d : Nat} {r : α} (h : key r = d)
    (l : List α) :
    (insertLe key r l).filter (fun x => key x == d)
      = r :: l.filter (fun x => key x == d) := by
  have hrb : (key r == d) = true := by simpa using h
  induction l with
  | nil =>
    show List.filter _ [r] = [r]
    simp [List.filter_cons, hrb]
  | cons s ss ih =>
    unfold insertLe
    split
    · simp [List.filter_cons, hrb]
    · rename_i hgt
      have hs : (key s == d) = false := by
        simp only [beq_eq_false_iff_ne, ne_eq]
        intro hsd
        exact hgt (le_of_eq (h.trans hsd.symm))
      simp [List.filter_cons, hs, ih]

lemma filter_insertLe_of_ne {key : α → Nat} {d : Nat} {r : α} (h : key r ≠ d)
    (l : List α) :
    (insertLe key r l).filter (fun x => key x == d)
      = l.filter (fun x => key x == d) := by
  have hrb : (key r == d) = false := by simpa using h
  induction l with
  | nil =>
    show List.filter _ [r] = List.filter _ []
    simp [List.filter_cons, hrb]
  | cons s ss ih =>
    unfold insertLe
    split
    · simp [List.filter_cons, hrb]
    · simp only [List.filter_cons]
      cases hks : key s == d
      · simp only [if_false, Bool.false_eq_true, ih]
      · simp only [if_true, ih]

lemma filter_sortByKey (key : α → Nat) (d : Nat) (l : List α) :
    (sortByKey key l).filter (fun x => key x == d)
      = l.filter (fun x => key x == d) := by
  induction l with
  | nil => rfl
  | cons a l ih =>
    show (insertLe key a (sortByKey key l)).filter _ = _
    by_cases h : key a = d
    · have hb : (key a == d) = true := by simpa using h
      rw [filter_insertLe_of_eq h, ih]
      simp [List.filter_cons, hb]
    · have hb : (key a == d) = false := by simpa using h
      rw [filter_insertLe_of_ne h, ih]
      simp [List.filter_cons, hb]

lemma mem_dedupFirstAux {seen : List Nat} {l : List SalesRecord} {r : SalesRecord}
    (h : r ∈ dedupFirstAux seen l) : r ∈ l ∧ r.date ∉ seen := by
  induction l generalizing seen with
  | nil => simp [dedupFirstAux] at h
  | cons a l ih =>
    unfold dedupFirstAux at h
    split at h
    · rcases ih h with ⟨h1, h2⟩
      exact ⟨List.mem_cons_of_mem a h1, h2⟩
    · rename_i hnot
      rcases List.mem_cons.mp h with rfl | hmem
      · exact ⟨List.mem_cons_self r l, hnot⟩
      · rcases ih hmem with ⟨h1, h2⟩
        refine ⟨List.mem_cons_of_mem a h1, fun hc => h2 ?_⟩
        exact List.mem_cons_of_mem _ hc

lemma find?_of_mem_dedupFirstAux {seen : List Nat} {l : List SalesRecord}
    {r : SalesRecord} (h : r ∈ dedupFirstAux seen l) :
    l.find? (fun x => x.date == r.date) = some r := by
  induction l generalizing seen with
  | nil => simp [dedupFirstAux] at h
  | cons a l ih =>
    unfold dedupFirstAux at h
    split at h
    · rename_i hseen
      have hne : a.date ≠ r.date := by
        intro he
        exact (mem_dedupFirstAux h).2 (he ▸ hseen)
      have hb : (a.date == r.date) = false := by simpa using hne
      rw [List.find?_cons_of_neg _ (by simp [hb]), ih h]
    · rename_i hnot
      rcases List.mem_cons.mp h with rfl | hmem
      · exact List.find?_cons_of_pos _ (by simp)
      · have hne : a.date ≠ r.date := by
          intro he
          exact (mem_dedupFirstAux hmem).2 (he ▸ List.mem_cons_self a.date seen)
        have hb : (a.date == r.date) = false := by simpa using hne
        rw [List.find?_cons_of_neg _ (by simp [hb]), ih hmem]

lemma nodup_dates_dedupFirstAux (seen : List Nat) (l : List SalesRecord) :
    ((dedupFirstAux seen l).map (·.date)).Nodup := by
  induction l generalizing seen with
  | nil => simp [dedupFirstAux]
  | cons a l ih =>
    unfold dedupFirstAux
    split
    · exact ih seen
    · rw [List.map_cons, List.nodup_cons]
      refine ⟨fun hc => ?_, ih (a.date :: seen)⟩
      rcases List.mem_map.mp hc with ⟨r, hr, hd⟩
      exact (mem_dedupFirstAux hr).2 (hd ▸ List.mem_cons_self a.date seen)

lemma isStableSortByDate_sortByKey (g : List SalesRecord) :
    IsStableSortByDate g (sortByKey (·.date) g) :=
  ⟨pairwise_sortByKey (·.date) g, fun d => filter_sortByKey (·.date) d g⟩

lemma map_fst_filterMap_clean (recs : List SalesRecord) (ks : List Nat) :
    ((ks.map (fun pid => (pid, recs.filter (fun r => r.product_id == pid)))).filterMap
        (fun g => (cleanGroup g.2).map (fun s => (g.1, s)))).map Prod.fst
      = ks.filter
          (fun k => decide
            (2 ≤ (prepGroup (recs.filter (fun r => r.product_id == k))).length)) := by
  induction ks with
  | nil => rfl
  | cons k ks ih =>
    rw [List.filterMap_map] at ih
    rw [List.map_cons, List.filter_cons]
    by_cases h : (prepGroup (recs.filter (fun r => r.product_id == k))).length < 2
    · have hng : cleanGroup (recs.filter (fun r => r.product_id == k)) = none := by
        unfold cleanGroup
        simp [h]
      have hcond : decide
          (2 ≤ (prepGroup (recs.filter (fun r => r.product_id == k))).length) = false := by
        simpa using Nat.not_le.mpr h
      rw [List.filterMap_cons]
      simp only [hng, Option.map_none, hcond]
      simp [ih]
    · have hle : 2 ≤ (prepGroup (recs.filter (fun r => r.product_id == k))).length :=
        Nat.le_of_not_lt h
      have hsg : cleanGroup (recs.filter (fun r => r.product_id == k))
          = some (outlierStep ((prepGroup (recs.filter (fun r => r.product_id == k))).map
              (fun q => (q.1, (q.2 : Real))))) := by
        unfold cleanGroup
        simp [h]
      have hcond : decide
          (2 ≤ (prepGroup (recs.filter (fun r => r.product_id == k))).length) = true := by
        simpa using hle
      rw [List.filterMap_cons]
      simp only [hsg, Option.map_some, hcond]
      simp [ih]

lemma map_fst_cleanAndPrepareData (recs : List SalesRecord) :
    (cleanAndPrepareData recs).map Prod.fst
      = (groupKeys recs).filter
          (fun k => decide
            (2 ≤ (prepGroup (recs.filter (fun r => r.product_id == k))).length)) := by
  unfold cleanAndPrepareData groupByProduct
  exact map_fst_filterMap_clean recs (groupKeys recs)

lemma length_cleanAndPrepareData (recs : List SalesRecord) :
    (cleanAndPrepareData recs).length
      = ((groupKeys recs).filter
          (fun k => decide
            (2 ≤ (prepGroup (recs.filter (fun r => r.product_id == k))).length))).length := by
  rw [← map_fst_cleanAndPrepareData, List.length_map]

/-! ## Reduction lemmas for `saveForecastsToDatabase` and the loop step -/

lemma save_of_missing_key {st : Store} {uid : String} {pid : Nat} {fr : FRes}
    {t1 t2 : Int} {db : Bool}
    (h : fr.forecasts.lookup 7 = none ∨ fr.forecasts.lookup 30 = none ∨
         fr.forecasts.lookup 90 = none ∨ fr.forecasts.lookup 365 = none) :
    saveForecastsToDatabase st uid pid fr t1 t2 db = .error .keyDbError := by
  rcases h7 : fr.forecasts.lookup 7 with _ | f7
  · unfold saveForecastsToDatabase
    rw [h7]
  · rcases h30 : fr.forecasts.lookup 30 with _ | f30
    · unfold saveForecastsToDatabase
      rw [h7, h30]
    · rcases h90 : fr.forecasts.lookup 90 with _ | f90
      · unfold saveForecastsToDatabase
        rw [h7, h30, h90]
      · rcases h365 : fr.forecasts.lookup 365 with _ | f365
        · unfold saveForecastsToDatabase
          rw [h7, h30, h90, h365]
        · exfalso
          rcases h with h | h | h | h <;> simp_all

lemma save_of_all_keys {st : Store} {uid : String} {pid : Nat} {fr : FRes}
    {t1 t2 : Int} {db : Bool} {f7 f30 f90 f365 : HorizonRes}
    (h7 : fr.forecasts.lookup 7 = some f7) (h30 : fr.forecasts.lookup 30 = some f30)
    (h90 : fr.forecasts.lookup 90 = some f90)
    (h365 : fr.forecasts.lookup 365 = some f365) :
    saveForecastsToDatabase st uid pid fr t1 t2 db
      = if db then .error .writeDbError
        else .ok ((st.filter (fun e => !keyMatches uid pid e)) ++
          [(uid, pid,
            { forecast_7d := f7.value
              forecast_30d := f30.value
              forecast_90d := f90.value
              forecast_365d := f365.value
              trend_status := fr.trend_status
              confidence_score := fr.confidence_score
              generated_at := t2
              expires_at := t1 + 86400 })]) := by
  unfold saveForecastsToDatabase
  rw [h7, h30, h90, h365]

lemma productFailure_of_fit_error {ffn : FitOracle} {env : Nat → SaveEnv}
    {p : Nat × List (Nat × Real)} {e : PErr} (hf : ffn p.1 p.2 = .error e) :
    productFailure ffn env p = some (p.1, e) := by
  unfold productFailure
  rw [hf]

lemma productFailure_of_missing_key {ffn : FitOracle} {env : Nat → SaveEnv}
    {p : Nat × List (Nat × Real)} {fr : FRes} (hf : ffn p.1 p.2 = .ok fr)
    (h : fr.forecasts.lookup 7 = none ∨ fr.forecasts.lookup 30 = none ∨
         fr.forecasts.lookup 90 = none ∨ fr.forecasts.lookup 365 = none) :
    productFailure ffn env p = some (p.1, .keyDbError) := by
  rcases h7 : fr.forecasts.lookup 7 with _ | f7
  · simp only [productFailure, hf, h7]
  · rcases h30 : fr.forecasts.lookup 30 with _ | f30
    · simp only [productFailure, hf, h7, h30]
    · rcases h90 : fr.forecasts.lookup 90 with _ | f90
      · simp only [productFailure, hf, h7, h30, h90]
      · rcases h365 : fr.forecasts.lookup 365 with _ | f365
        · simp only [productFailure, hf, h7, h30, h90, h365]
        · exfalso
          rcases h with h | h | h | h <;> simp_all

lemma productFailure_of_all_keys {ffn : FitOracle} {env : Nat → SaveEnv}
    {p : Nat × List (Nat × Real)} {fr : FRes} {f7 f30 f90 f365 : HorizonRes}
    (hf : ffn p.1 p.2 = .ok fr)
    (h7 : fr.forecasts.lookup 7 = some f7) (h30 : fr.forecasts.lookup 30 = some f30)
    (h90 : fr.forecasts.lookup 90 = some f90)
    (h365 : fr.forecasts.lookup 365 = some f365) :
    productFailure ffn env p
      = if (env p.1).dbFail then some (p.1, .writeDbError) else none := by
  simp only [productFailure, hf, h7, h30, h90, h365]

lemma productSucceeds_eq_isNone_productFailure (ffn : FitOracle) (env : Nat → SaveEnv)
    (p : Nat × List (Nat × Real)) :
    productSucceeds ffn env p = (productFailure ffn env p).isNone := by
  cases hf : ffn p.1 p.2 with
  | error e => simp [productSucceeds, productFailure_of_fit_error hf, hf]
  | ok fr =>
    rcases h7 : fr.forecasts.lookup 7 with _ | f7
    · rw [productFailure_of_missing_key hf (Or.inl h7)]
      simp [productSucceeds, hf, h7]
    · rcases h30 : fr.forecasts.lookup 30 with _ | f30
      · rw [productFailure_of_missing_key hf (Or.inr (Or.inl h30))]
        simp [productSucceeds, hf, h7, h30]
      · rcases h90 : fr.forecasts.lookup 90 with _ | f90
        · rw [productFailure_of_missing_key hf (Or.inr (Or.inr (Or.inl h90)))]
          simp [productSucceeds, hf, h7, h30, h90]
        · rcases h365 : fr.forecasts.lookup 365 with _ | f365
          · rw [productFailure_of_missing_key hf (Or.inr (Or.inr (Or.inr h365)))]
            simp [productSucceeds, hf, h7, h30, h90, h365]
          · rw [productFailure_of_all_keys hf h7 h30 h90 h365]
            cases hdb : (env p.1).dbFail <;>
              simp [productSucceeds, hf, h7, h30, h90, h365, hdb]

lemma runLoopStep_of_failure (uid : String) (ffn : FitOracle) (env : Nat → SaveEnv)
    (acc : Store × List (Nat × PErr) × Nat) (p : Nat × List (Nat × Real))
    (pe : Nat × PErr) (h : productFailure ffn env p = some pe) :
    runLoopStep uid ffn env acc p = (acc.1, acc.2.1 ++ [pe], acc.2.2) := by
  cases hf : ffn p.1 p.2 with
  | error e =>
    rw [productFailure_of_fit_error hf] at h
    cases h
    simp only [runLoopStep, hf]
  | ok fr =>
    rcases h7 : fr.forecasts.lookup 7 with _ | f7
    · rw [productFailure_of_missing_key hf (Or.inl h7)] at h
      cases h
      simp only [runLoopStep, hf, save_of_missing_key (Or.inl h7)]
    · rcases h30 : fr.forecasts.lookup 30 with _ | f30
      · rw [productFailure_of_missing_key hf (Or.inr (Or.inl h30))] at h
        cases h
        simp only [runLoopStep, hf, save_of_missing_key (Or.inr (Or.inl h30))]
      · rcases h90 : fr.forecasts.lookup 90 with _ | f90
        · rw [productFailure_of_missing_key hf (Or.inr (Or.inr (Or.inl h90)))] at h
          cases h
          simp only [runLoopStep, hf, save_of_missing_key (Or.inr (Or.inr (Or.inl h90)))]
        · rcases h365 : fr.forecasts.lookup 365 with _ | f365
          · rw [productFailure_of_missing_key hf (Or.inr (Or.inr (Or.inr h365)))] at h
            cases h
            simp only [runLoopStep, hf, save_of_missing_key (Or.inr (Or.inr (Or.inr h365)))]
          · rw [productFailure_of_all_keys hf h7 h30 h90 h365] at h
            cases hdb : (env p.1).dbFail
            · rw [hdb] at h
              simp at h
            · rw [hdb] at h
              simp only [if_pos] at h
              cases h
              simp only [runLoopStep, hf, save_of_all_keys h7 h30 h90 h365, hdb,
                if_true]

lemma runLoopStep_of_success (uid : String) (ffn : FitOracle) (env : Nat → SaveEnv)
    (acc : Store × List (Nat × PErr) × Nat) (p : Nat × List (Nat × Real))
    (h : productFailure ffn env p = none) :
    ∃ st', runLoopStep uid ffn env acc p = (st', acc.2.1, acc.2.2 + 1) := by
  cases hf : ffn p.1 p.2 with
  | error e =>
    rw [productFailure_of_fit_error hf] at h
    cases h
  | ok fr =>
    rcases h7 : fr.forecasts.lookup 7 with _ | f7
    · rw [productFailure_of_missing_key hf (Or.inl h7)] at h
      cases h
    · rcases h30 : fr.forecasts.lookup 30 with _ | f30
      · rw [productFailure_of_missing_key hf (Or.inr (Or.inl h30))] at h
        cases h
      · rcases h90 : fr.forecasts.lookup 90 with _ | f90
        · rw [productFailure_of_missing_key hf (Or.inr (Or.inr (Or.inl h90)))] at h
          cases h
        · rcases h365 : fr.forecasts.lookup 365 with _ | f365
          · rw [productFailure_of_missing_key hf (Or.inr (Or.inr (Or.inr h365)))] at h
            cases h
          · rw [productFailure_of_all_keys hf h7 h30 h90 h365] at h
            cases hdb : (env p.1).dbFail
            · cases hsv : saveForecastsToDatabase acc.1 uid p.1 fr (env p.1).t1
                  (env p.1).t2 (env p.1).dbFail with
              | error e =>
                rw [save_of_all_keys h7 h30 h90 h365, hdb] at hsv
                simp at hsv
              | ok st1 =>
                refine ⟨st1, ?_⟩
                simp only [runLoopStep, hf, hsv]
            · rw [hdb] at h
              simp at h

lemma foldl_runLoopStep (uid : String) (ffn : FitOracle) (env : Nat → SaveEnv)
    (l : List (Nat × List (Nat × Real))) :
    ∀ (st : Store) (log : List (Nat × PErr)) (n : Nat),
      ∃ st', l.foldl (runLoopStep uid ffn env) (st, log, n)
        = (st', log ++ l.filterMap (productFailure ffn env),
           n + l.countP (productSucceeds ffn env)) := by
  induction l with
  | nil =>
    intro st log n
    exact ⟨st, by simp⟩
  | cons p ps ih =>
    intro st log n
    rw [List.foldl_cons]
    cases hpf : productFailure ffn env p with
    | some pe =>
      rw [runLoopStep_of_failure uid ffn env (st, log, n) p pe hpf]
      obtain ⟨st', h'⟩ := ih st (log ++ [pe]) n
      refine ⟨st', ?_⟩
      rw [h', List.filterMap_cons_some hpf, List.countP_cons]
      have hsucc : productSucceeds ffn env p = false := by
        rw [productSucceeds_eq_isNone_productFailure, hpf]
        rfl
      rw [hsucc]
      simp
    | none =>
      obtain ⟨st1, hstep⟩ := runLoopStep_of_success uid ffn env (st, log, n) p hpf
      rw [hstep]
      obtain ⟨st', h'⟩ := ih st1 log (n + 1)
      refine ⟨st', ?_⟩
      rw [h', List.filterMap_cons_none hpf, List.countP_cons]
      have hsucc : productSucceeds ffn env p = true := by
        rw [productSucceeds_eq_isNone_productFailure, hpf]
        rfl
      rw [hsucc]
      have harith : n + 1 + List.countP (productSucceeds ffn env) ps
          = n + (List.countP (productSucceeds ffn env) ps + if true = true then 1 else 0) := by
        simp
        omega
      rw [← harith]

lemma filter_keyMatches_of_save (uid : String) (pid pid' : Nat) (hne : pid' ≠ pid)
    (st : Store) (row : DbRow) :
    ((st.filter (fun e => !keyMatches uid pid' e)) ++ [(uid, pid', row)]).filter
        (keyMatches uid pid)
      = st.filter (keyMatches uid pid) := by
  rw [List.filter_append, List.filter_filter]
  have h1 : ∀ e : String × Nat × DbRow,
      (keyMatches uid pid e && !keyMatches uid pid' e) = keyMatches uid pid e := by
    intro e
    cases hk : keyMatches uid pid e
    · simp
    · have hk2 : e.1 = uid ∧ e.2.1 = pid := by simpa [keyMatches] using hk
      have hb : (e.2.1 == pid') = false := by
        simp [hk2.2]
        omega
      have hk' : keyMatches uid pid' e = false := by
        simp [keyMatches, hb]
      simp [hk']
  have h2 : keyMatches uid pid (uid, pid', row) = false := by
    have hb : (pid' == pid) = false := by
      simp
      omega
    simp [keyMatches, hb]
  rw [List.filter_congr (fun e _ => h1 e)]
  simp [h2]

lemma foldl_store_other_products_unchanged (uid : String) (ffn : FitOracle)
    (env : Nat → SaveEnv) (pid : Nat) (l : List (Nat × List (Nat × Real))) :
    ∀ (st : Store) (log : List (Nat × PErr)) (n : Nat), pid ∉ l.map Prod.fst →
      ((l.foldl (runLoopStep uid ffn env) (st, log, n)).1).filter (keyMatches uid pid)
        = st.filter (keyMatches uid pid) := by
  induction l with
  | nil =>
    intro st log n _
    rfl
  | cons p ps ih =>
    intro st log n hpid
    have hne : pid ≠ p.1 := by
      intro he
      exact hpid (List.mem_map.mpr ⟨p, List.mem_cons_self p ps, he.symm⟩)
    have hps : pid ∉ ps.map Prod.fst := by
      intro hc
      rcases List.mem_map.mp hc with ⟨q, hq, he⟩
      exact hpid (List.mem_map.mpr ⟨q, List.mem_cons_of_mem p hq, he⟩)
    rw [List.foldl_cons]
    cases hpf : productFailure ffn env p with
    | some pe =>
      rw [runLoopStep_of_failure uid ffn env (st, log, n) p pe hpf]
      exact ih st _ n hps
    | none =>
      cases hf : ffn p.1 p.2 with
      | error e =>
        rw [productFailure_of_fit_error hf] at hpf
        cases hpf
      | ok fr =>
        rcases h7 : fr.forecasts.lookup 7 with _ | f7
        · rw [productFailure_of_missing_key hf (Or.inl h7)] at hpf
          cases hpf
        · rcases h30 : fr.forecasts.lookup 30 with _ | f30
          · rw [productFailure_of_missing_key hf (Or.inr (Or.inl h30))] at hpf
            cases hpf
          · rcases h90 : fr.forecasts.lookup 90 with _ | f90
            · rw [productFailure_of_missing_key hf (Or.inr (Or.inr (Or.inl h90)))] at hpf
              cases hpf
            · rcases h365 : fr.forecasts.lookup 365 with _ | f365
              · rw [productFailure_of_missing_key hf (Or.inr (Or.inr (Or.inr h365)))] at hpf
                cases hpf
              · cases hdb : (env p.1).dbFail
                · have hstep : runLoopStep uid ffn env (st, log, n) p
                      = ((st.filter (fun e => !keyMatches uid p.1 e)) ++
                          [(uid, p.1,
                            { forecast_7d := f7.value
                              forecast_30d := f30.value
                              forecast_90d := f90.value
                              forecast_365d := f365.value
                              trend_status := fr.trend_status
                              confidence_score := fr.confidence_score
                              generated_at := (env p.1).t2
                              expires_at := (env p.1).t1 + 86400 })], log, n + 1) := by
                    simp only [runLoopStep, hf, save_of_all_keys h7 h30 h90 h365, hdb,
                      Bool.false_eq_true, if_false]
                  rw [hstep, ih _ _ _ hps,
                    filter_keyMatches_of_save uid pid p.1 (fun he => hne he.symm) st _]
                · rw [productFailure_of_all_keys hf h7 h30 h90 h365, hdb] at hpf
                  simp at hpf

/-! ## Forecast and outlier lemmas -/

lemma pdTail_predictAll (m : Model) (series : List (Nat × Rat)) (H : Nat) :
    pdTail H (predictAll m (makeFutureDataframe series H))
      = ((List.range H).map (fun i => lastDate series + (i + 1))).map m.predictRow := by
  unfold pdTail predictAll makeFutureDataframe
  rw [List.map_append, List.length_append]
  have h1 : (((series.map (·.1)).map m.predictRow)).length = series.length := by simp
  have h2 : ((((List.range H).map (fun i => lastDate series + (i + 1))).map
      m.predictRow)).length = H := by simp
  rw [h1, h2, Nat.add_sub_cancel, ← h1]
  exact List.drop_left _ _

lemma mem_dropDuplicatesSortValues {g : List SalesRecord} {r : SalesRecord}
    (h : r ∈ dropDuplicatesSortValues g) : r ∈ g := by
  unfold dropDuplicatesSortValues at h
  exact (mem_dedupFirstAux ((mem_sortByKey _ _ r).mp h)).1

lemma listMean_nonneg {l : List Real} (h : ∀ y ∈ l, 0 ≤ y) : 0 ≤ listMean l := by
  unfold listMean
  exact div_nonneg (List.sum_nonneg h) (Nat.cast_nonneg _)

lemma length_outlierStep (s : List (Nat × Real)) : (outlierStep s).length = s.length := by
  simp only [outlierStep]
  split
  · rw [List.length_map]
  · rfl

lemma outlierStep_le_threshold {s : List (Nat × Real)}
    (hstd : sampleStd (s.map (·.2)) > 0) :
    ∀ p ∈ outlierStep s,
      p.2 ≤ listMean (s.map (·.2)) + 3 * sampleStd (s.map (·.2)) := by
  intro p hp
  simp only [outlierStep] at hp
  rw [if_pos hstd] at hp
  rcases List.mem_map.mp hp with ⟨q, hq, rfl⟩
  dsimp only
  split_ifs with hgt
  · exact le_refl _
  · exact le_of_not_lt hgt

lemma outlierStep_mem_of_le {s : List (Nat × Real)}
    (hstd : sampleStd (s.map (·.2)) > 0) :
    ∀ p ∈ s, p.2 ≤ listMean (s.map (·.2)) + 3 * sampleStd (s.map (·.2)) →
      p ∈ outlierStep s := by
  intro p hp hle
  simp only [outlierStep]
  rw [if_pos hstd]
  refine List.mem_map.mpr ⟨p, hp, ?_⟩
  rw [if_neg (not_lt.mpr hle)]

lemma outlierStep_nonneg {s : List (Nat × Real)} (h : ∀ p ∈ s, 0 ≤ p.2) :
    ∀ p ∈ outlierStep s, 0 ≤ p.2 := by
  intro p hp
  simp only [outlierStep] at hp
  split_ifs at hp with hstd
  · rcases List.mem_map.mp hp with ⟨q, hq, rfl⟩
    dsimp only
    split_ifs with hgt
    · have hm : 0 ≤ listMean (s.map (·.2)) := by
        refine listMean_nonneg ?_
        intro y hy
        rcases List.mem_map.mp hy with ⟨q', hq', rfl⟩
        exact h q' hq'
      have hs : 0 ≤ sampleStd (s.map (·.2)) := Real.sqrt_nonneg _
      linarith
    · exact h q hq
  · exact h p hp

/-! ## Claims -/

/-- C5: for every configured horizon `H`, the per-horizon result sums the
predicted point, lower-bound and upper-bound values only over the `H`
appended future days (never the historical portion of the extended
prediction); the summed point estimate and summed lower bound are clipped at
0, the summed upper bound is not clipped, and all three are rounded to the
nearest integer (ties to even, as Python's `round`). -/
theorem c5_horizon_sums_future_only (m : Model) (series : List (Nat × Rat))
    (H : Nat) :
    pdTail H (predictAll m (makeFutureDataframe series H))
      = appendedFutureRows m series H ∧
    horizonEntry m series H
      = { value := pyRound
            (max 0 (((appendedFutureRows m series H).map (·.yhat)).sum))
          lower_bound := pyRound
            (max 0 (((appendedFutureRows m series H).map (·.yhat_lower)).sum))
          upper_bound := pyRound
            (((appendedFutureRows m series H).map (·.yhat_upper)).sum) } ∧
    |(pyRound (max 0 (((appendedFutureRows m series H).map (·.yhat)).sum)) : Rat)
        - max 0 (((appendedFutureRows m series H).map (·.yhat)).sum)| ≤ 1 / 2 ∧
    |(pyRound (max 0 (((appendedFutureRows m series H).map (·.yhat_lower)).sum)) : Rat)
        - max 0 (((appendedFutureRows m series H).map (·.yhat_lower)).sum)| ≤ 1 / 2 ∧
    |(pyRound (((appendedFutureRows m series H).map (·.yhat_upper)).sum) : Rat)
        - ((appendedFutureRows m series H).map (·.yhat_upper)).sum| ≤ 1 / 2 := by
  have htail : pdTail H (predictAll m (makeFutureDataframe series H))
      = appendedFutureRows m series H := by
    rw [pdTail_predictAll]
    rfl
  refine ⟨htail, ?_, abs_pyRound_sub_le _, abs_pyRound_sub_le _, abs_pyRound_sub_le _⟩
  simp only [horizonEntry, htail]
  rw [max_zero_pyRound]

/-- C6: in the pipeline's invocation (the default `forecast_periods`
`[7, 30, 90, 365]`), `trend_status` is derived from the prediction produced
for 365 days — the longest configured horizon — as the mean trend over the
last 30 predicted rows minus the mean trend over the first 30 rows of that
same prediction, classified with the `0.1` thresholds. -/
theorem c6_trend_from_longest_horizon (m : Model) (series : List (Nat × Rat)) :
    (trainAndForecast m series [7, 30, 90, 365]).map FRes.trend_status
      = some (trendStatusOf (predictAll m (makeFutureDataframe series 365))) ∧
    trendStatusOf (predictAll m (makeFutureDataframe series 365))
      = (if listMeanQ ((pdTail 30 (predictAll m (makeFutureDataframe series 365))).map
            (·.trend))
          - listMeanQ ((pdHead 30 (predictAll m (makeFutureDataframe series 365))).map
            (·.trend)) > 1 / 10
        then "trending"
        else if listMeanQ ((pdTail 30 (predictAll m (makeFutureDataframe series 365))).map
            (·.trend))
          - listMeanQ ((pdHead 30 (predictAll m (makeFutureDataframe series 365))).map
            (·.trend)) < -(1 / 10)
        then "declining"
        else "stable") ∧
    (∀ p ∈ [7, 30, 90, 365], p ≤ 365) := by
  refine ⟨rfl, rfl, by decide⟩

/-- C8: the confidence score is `clamp(1 - mape/100, 0.3, 0.95)`
(`max(0.3, min(0.95, 1 - mape/100))` in the code), so it lies in
`[0.3, 0.95]` for every mape value, including `mape = 0` (score `0.95`) and
values above 100 (score `0.3` at `mape = 150`); every `train_and_forecast`
result carries exactly this score for its mape. -/
theorem c8_confidence_clamped :
    (∀ mape : Rat,
      confidenceScore mape = max (3 / 10) (min (19 / 20) (1 - mape / 100)) ∧
      3 / 10 ≤ confidenceScore mape ∧ confidenceScore mape ≤ 19 / 20) ∧
    confidenceScore 0 = 19 / 20 ∧
    confidenceScore 150 = 3 / 10 ∧
    (∀ (m : Model) (series : List (Nat × Rat)) (periods : List Nat) (fr : FRes),
      trainAndForecast m series periods = some fr →
      fr.confidence_score = confidenceScore fr.mape) := by
  refine ⟨fun mape => ⟨rfl, le_max_left _ _, ?_⟩, ?_, ?_, ?_⟩
  · exact max_le (by norm_num) (min_le_left _ _)
  · unfold confidenceScore
    rw [show (1 : Rat) - 0 / 100 = 1 by norm_num]
    rw [min_eq_left (by norm_num), max_eq_right (by norm_num)]
  · unfold confidenceScore
    rw [show (1 : Rat) - 150 / 100 = -(1 / 2) by norm_num]
    rw [min_eq_right (by norm_num), max_eq_left (by norm_num)]
  · intro m series periods fr h
    cases hl : periods.getLast? with
    | none =>
      simp only [trainAndForecast, hl] at h
      exact Option.noConfusion h
    | some lastP =>
      simp only [trainAndForecast, hl] at h
      cases h
      rfl

/-- Witness for C8 at concrete inputs: `mape = 0` and a concrete
`train_and_forecast` run. -/
theorem c8_witness :
    (3 / 10 ≤ confidenceScore 0 ∧ confidenceScore 0 ≤ 19 / 20) ∧
    ∃ fr : FRes, trainAndForecast constModel twoPointSeries [1] = some fr ∧
      fr.confidence_score = confidenceScore fr.mape := by
  obtain ⟨hall, _, _, htf⟩ := c8_confidence_clamped
  obtain ⟨fr, hfr⟩ : ∃ fr, trainAndForecast constModel twoPointSeries [1] = some fr :=
    ⟨_, rfl⟩
  exact ⟨⟨(hall 0).2.1, (hall 0).2.2⟩, fr, hfr, htf _ _ _ _ hfr⟩

/-- C3: for every input record group containing duplicate dates, the cleaned
series contains each date at most once, and the record (hence the quantity)
retained for a duplicated date is the first occurrence of that date after a
stable ascending sort of the group — `drop_duplicates` before `sort_values`
in the code agrees with the spec's "sort ascending, keep first" policy. -/
theorem c3_dedup_keeps_first_after_stable_sort (g s : List SalesRecord)
    (hs : IsStableSortByDate g s) :
    ((prepGroup g).map Prod.fst).Nodup ∧
    ∀ r ∈ dropDuplicatesSortValues g,
      s.find? (fun x => x.date == r.date) = some r ∧
      (r.date, r.quantity_sold.getD 0) ∈ prepGroup g := by
  constructor
  · have h1 : (prepGroup g).map Prod.fst
        = (dropDuplicatesSortValues g).map (·.date) := by
      unfold prepGroup
      rw [List.map_map]
      rfl
    rw [h1]
    unfold dropDuplicatesSortValues
    have hperm := (perm_sortByKey (·.date) (dedupFirst g)).map (·.date)
    exact hperm.nodup_iff.mpr (nodup_dates_dedupFirstAux [] g)
  · intro r hr
    have hrd : r ∈ dedupFirst g := by
      unfold dropDuplicatesSortValues at hr
      exact (mem_sortByKey _ _ r).mp hr
    have hfind : g.find? (fun x => x.date == r.date) = some r :=
      find?_of_mem_dedupFirstAux hrd
    constructor
    · rw [find?_eq_head_filter, hs.2 r.date, ← find?_eq_head_filter]
      exact hfind
    · exact List.mem_map.mpr ⟨r, hr, rfl⟩

/-- Witness for C3 at a concrete group with a duplicated date in scrambled
order, using the stable ascending sort of the group as the spec-side
arrangement. -/
theorem c3_witness :
    IsStableSortByDate gDup (sortByKey (·.date) gDup) ∧
    ((prepGroup gDup).map Prod.fst).Nodup ∧
    ∀ r ∈ dropDuplicatesSortValues gDup,
      (sortByKey (·.date) gDup).find? (fun x => x.date == r.date) = some r ∧
      (r.date, r.quantity_sold.getD 0) ∈ prepGroup gDup := by
  have hstable := isStableSortByDate_sortByKey gDup
  obtain ⟨h1, h2⟩ := c3_dedup_keeps_first_after_stable_sort gDup
    (sortByKey (·.date) gDup) hstable
  exact ⟨hstable, h1, h2⟩

/-- C1: for every tenant run (non-empty fetch, non-empty cleaning result),
every product whose fitting or persistence fails is logged with its error and
skipped, the loop continues over the remaining products, the run returns
normally with `successful_count` = the number of products whose fit and save
both succeed out of `total_products` = the number of cleaned products, and
the command exits with code 0. -/
theorem c1_per_product_failures_recovered (uid : String) (recs : List SalesRecord)
    (ffn : FitOracle) (env : Nat → SaveEnv) (store : Store)
    (h1 : recs ≠ []) (h2 : cleanAndPrepareData recs ≠ []) :
    (∃ st', runForecastingForUser uid (.ok recs) ffn env store
      = .ok (st', (cleanAndPrepareData recs).filterMap (productFailure ffn env),
             some ((cleanAndPrepareData recs).length,
               (cleanAndPrepareData recs).countP (productSucceeds ffn env)))) ∧
    mainExitCode uid (.ok recs) ffn env store = 0 := by
  have hre : recs.isEmpty = false := by
    cases recs
    · exact absurd rfl h1
    · rfl
  have hce : (cleanAndPrepareData recs).isEmpty = false := by
    cases hc : cleanAndPrepareData recs
    · exact absurd hc h2
    · rfl
  obtain ⟨st', hfold⟩ := foldl_runLoopStep uid ffn env (cleanAndPrepareData recs) store [] 0
  have hrun : runForecastingForUser uid (.ok recs) ffn env store
      = .ok (st', (cleanAndPrepareData recs).filterMap (productFailure ffn env),
             some ((cleanAndPrepareData recs).length,
               (cleanAndPrepareData recs).countP (productSucceeds ffn env))) := by
    simp only [runForecastingForUser, hre, hce, Bool.false_eq_true, if_false]
    rw [hfold]
    simp
  exact ⟨⟨st', hrun⟩, by simp only [mainExitCode, hrun]⟩

/-- Witness for C1, the spec's scenario: three cleaned products, fitting
fails for exactly one of them (product 2); the run returns with
`successful_count = 2` of `total_products = 3`, the failure is logged, and
the exit code is 0. -/
theorem c1_witness :
    recsThree ≠ [] ∧
    (∃ st', runForecastingForUser "u1" (.ok recsThree) ffnFailSecond envNoFail []
      = .ok (st', [(2, .forecastFailed)], some (3, 2))) ∧
    mainExitCode "u1" (.ok recsThree) ffnFailSecond envNoFail [] = 0 := by
  have hmap : (cleanAndPrepareData recsThree).map Prod.fst = [1, 2, 3] := by
    rw [map_fst_cleanAndPrepareData]
    decide
  have h2 : cleanAndPrepareData recsThree ≠ [] := by
    intro he
    rw [he] at hmap
    exact List.noConfusion hmap
  obtain ⟨⟨st', hrun⟩, hexit⟩ :=
    c1_per_product_failures_recovered "u1" recsThree ffnFailSecond envNoFail []
      (by decide) h2
  have hpf : productFailure ffnFailSecond envNoFail
      = (fun k => if k = 2 then some (2, PErr.forecastFailed) else none) ∘ Prod.fst := by
    funext p
    by_cases hp : p.1 = 2
    · have hf : ffnFailSecond p.1 p.2 = .error .forecastFailed := by
        simp [ffnFailSecond, hp]
      rw [productFailure_of_fit_error hf]
      simp [Function.comp, hp]
    · have hf : ffnFailSecond p.1 p.2 = .ok frFull := by
        simp [ffnFailSecond, hp]
      rw [productFailure_of_all_keys hf rfl rfl rfl rfl]
      simp [Function.comp, hp, envNoFail]
  have hps : productSucceeds ffnFailSecond envNoFail
      = (fun k => decide (¬ k = 2)) ∘ Prod.fst := by
    funext p
    rw [productSucceeds_eq_isNone_productFailure, hpf]
    by_cases hp : p.1 = 2 <;> simp [Function.comp, hp]
  have hlen : (cleanAndPrepareData recsThree).length = 3 := by
    have := congrArg List.length hmap
    rwa [List.length_map] at this
  have hfm : (cleanAndPrepareData recsThree).filterMap
      (productFailure ffnFailSecond envNoFail) = [(2, PErr.forecastFailed)] := by
    rw [hpf, ← List.filterMap_map, hmap]
    decide
  have hcp : (cleanAndPrepareData recsThree).countP
      (productSucceeds ffnFailSecond envNoFail) = 2 := by
    rw [hps, ← List.countP_map, hmap]
    decide
  rw [hfm, hcp, hlen] at hrun
  exact ⟨by decide, ⟨st', hrun⟩, hexit⟩

/-- Counterexample to C2 as stated: in `recsSkip`, product 1 has fewer than 2
cleaned points, yet `total_products` (the length of `clean_and_prepare_data`'s
result, line 310) is 1, not 2 — the skipped product does **not** count toward
`total_products`. -/
theorem c2_counterexample :
    1 ∈ recsSkip.map (fun r => r.product_id) ∧
    (prepGroup (recsSkip.filter (fun r => r.product_id == 1))).length < 2 ∧
    (cleanAndPrepareData recsSkip).length = 1 ∧
    (cleanAndPrepareData recsSkip).map Prod.fst = [2] := by
  refine ⟨by decide, by decide, ?_, ?_⟩
  · rw [length_cleanAndPrepareData]
    decide
  · rw [map_fst_cleanAndPrepareData]
    decide

/-- C2 (amended): a product with fewer than 2 cleaned points is excluded
entirely — it appears in no cleaned series (so no summary is created for it
and no ResultStore write touches its key), no error is raised (the run still
returns normally) — and it does **not** count toward `total_products`, which
counts only the products with at least 2 cleaned points; `successful_count`
does not include it either (it only counts cleaned products). -/
theorem c2_insufficient_data_product_excluded (recs : List SalesRecord) (pid : Nat)
    (h1 : pid ∈ recs.map (fun r => r.product_id))
    (h2 : (prepGroup (recs.filter (fun r => r.product_id == pid))).length < 2) :
    pid ∉ (cleanAndPrepareData recs).map Prod.fst ∧
    (cleanAndPrepareData recs).length
      = ((groupKeys recs).filter
          (fun k => decide
            (2 ≤ (prepGroup (recs.filter (fun r => r.product_id == k))).length))).length ∧
    (∀ (uid : String) (ffn : FitOracle) (env : Nat → SaveEnv) (store : Store),
      ∃ out, runForecastingForUser uid (.ok recs) ffn env store = .ok out) ∧
    (∀ (uid : String) (ffn : FitOracle) (env : Nat → SaveEnv) (store st' : Store)
       (log : List (Nat × PErr)) (summ : Option (Nat × Nat)),
      runForecastingForUser uid (.ok recs) ffn env store = .ok (st', log, summ) →
      st'.filter (keyMatches uid pid) = store.filter (keyMatches uid pid)) := by
  have hnotin : pid ∉ (cleanAndPrepareData recs).map Prod.fst := by
    rw [map_fst_cleanAndPrepareData]
    intro hmem
    have := (List.mem_filter.mp hmem).2
    exact absurd (of_decide_eq_true this) (Nat.not_le.mpr h2)
  refine ⟨hnotin, length_cleanAndPrepareData recs, ?_, ?_⟩
  · intro uid ffn env store
    by_cases hre : recs.isEmpty = true
    · exact ⟨(store, [], none), by simp [runForecastingForUser, hre]⟩
    · have hre' : recs.isEmpty = false := by
        cases hb : recs.isEmpty
        · rfl
        · exact absurd hb hre
      by_cases hce : (cleanAndPrepareData recs).isEmpty = true
      · exact ⟨(store, [], none), by
          simp [runForecastingForUser, hre', hce]⟩
      · have hce' : (cleanAndPrepareData recs).isEmpty = false := by
          cases hb : (cleanAndPrepareData recs).isEmpty
          · rfl
          · exact absurd hb hce
        obtain ⟨st', hfold⟩ :=
          foldl_runLoopStep uid ffn env (cleanAndPrepareData recs) store [] 0
        refine ⟨(st', (cleanAndPrepareData recs).filterMap (productFailure ffn env),
          some ((cleanAndPrepareData recs).length,
            (cleanAndPrepareData recs).countP (productSucceeds ffn env))), ?_⟩
        simp only [runForecastingForUser, hre', hce', Bool.false_eq_true, if_false]
        rw [hfold]
        simp
  · intro uid ffn env store st' log summ hrun
    by_cases hre : recs.isEmpty = true
    · simp only [runForecastingForUser, hre, if_true, Except.ok.injEq,
        Prod.mk.injEq] at hrun
      rw [← hrun.1]
    · have hre' : recs.isEmpty = false := by
        cases hb : recs.isEmpty
        · rfl
        · exact absurd hb hre
      by_cases hce : (cleanAndPrepareData recs).isEmpty = true
      · simp only [runForecastingForUser, hre', hce, Bool.false_eq_true, if_false,
          if_true, Except.ok.injEq, Prod.mk.injEq] at hrun
        rw [← hrun.1]
      · have hce' : (cleanAndPrepareData recs).isEmpty = false := by
          cases hb : (cleanAndPrepareData recs).isEmpty
          · rfl
          · exact absurd hb hce
        simp only [runForecastingForUser, hre', hce', Bool.false_eq_true, if_false,
          Except.ok.injEq, Prod.mk.injEq] at hrun
        rw [← hrun.1]
        refine foldl_store_other_products_unchanged uid ffn env pid
          (cleanAndPrepareData recs) store [] 0 ?_
        exact hnotin

/-- Witness for C2 (amended) at `recsSkip`: product 1 has one cleaned point,
is absent from the cleaned data, and the run with any concrete oracles still
returns normally. -/
theorem c2_witness :
    1 ∈ recsSkip.map (fun r => r.product_id) ∧
    (prepGroup (recsSkip.filter (fun r => r.product_id == 1))).length < 2 ∧
    1 ∉ (cleanAndPrepareData recsSkip).map Prod.fst ∧
    ∃ out, runForecastingForUser "u1" (.ok recsSkip) ffnFailSecond envNoFail []
      = .ok out := by
  obtain ⟨hni, _, hok, _⟩ :=
    c2_insufficient_data_product_excluded recsSkip 1 (by decide) (by decide)
  exact ⟨by decide, by decide, hni, hok "u1" ffnFailSecond envNoFail []⟩

/-- Counterexample to C4 as stated: the code computes `expires_at` from one
`datetime.now()` call (line 257) and `generated_at` from a **later** one
(line 268); with the first sample at 0 and the second at 1 second, the stored
row has `expires_at - generated_at = 86399` seconds, not exactly 24 hours. -/
theorem c4_counterexample :
    ∃ row : DbRow, saveForecastsToDatabase [] "u1" 1 frFull 0 1 false
      = .ok [("u1", 1, row)] ∧
      row.generated_at = 1 ∧ row.expires_at = 86400 ∧
      row.expires_at - row.generated_at ≠ 86400 := by
  exact ⟨_, rfl, rfl, by decide, by decide⟩

/-- C4 (amended): for every successful save, `expires_at` is the first
`datetime.now()` sample plus exactly 24 hours and `generated_at` is the
second, later sample, so `expires_at - generated_at = 24h - (t2 - t1)`:
at most 24 hours, and exactly 24 hours precisely when the two clock samples
coincide. -/
theorem c4_expiry_window (store : Store) (uid : String) (pid : Nat) (fr : FRes)
    (t1 t2 : Int) (st' : Store)
    (hsave : saveForecastsToDatabase store uid pid fr t1 t2 false = .ok st')
    (hclock : t1 ≤ t2) :
    ∃ row : DbRow, (uid, pid, row) ∈ st' ∧
      row.expires_at = t1 + 86400 ∧
      row.generated_at = t2 ∧
      row.expires_at - row.generated_at = 86400 - (t2 - t1) ∧
      row.expires_at - row.generated_at ≤ 86400 ∧
      (row.expires_at - row.generated_at = 86400 ↔ t2 = t1) := by
  rcases h7 : fr.forecasts.lookup 7 with _ | f7
  · rw [save_of_missing_key (Or.inl h7)] at hsave
    exact Except.noConfusion hsave
  rcases h30 : fr.forecasts.lookup 30 with _ | f30
  · rw [save_of_missing_key (Or.inr (Or.inl h30))] at hsave
    exact Except.noConfusion hsave
  rcases h90 : fr.forecasts.lookup 90 with _ | f90
  · rw [save_of_missing_key (Or.inr (Or.inr (Or.inl h90)))] at hsave
    exact Except.noConfusion hsave
  rcases h365 : fr.forecasts.lookup 365 with _ | f365
  · rw [save_of_missing_key (Or.inr (Or.inr (Or.inr h365)))] at hsave
    exact Except.noConfusion hsave
  rw [save_of_all_keys h7 h30 h90 h365] at hsave
  simp only [Bool.false_eq_true, if_false, Except.ok.injEq] at hsave
  refine ⟨{ forecast_7d := f7.value, forecast_30d := f30.value,
            forecast_90d := f90.value, forecast_365d := f365.value,
            trend_status := fr.trend_status,
            confidence_score := fr.confidence_score,
            generated_at := t2, expires_at := t1 + 86400 },
    ?_, rfl, rfl, by dsimp only; omega, by dsimp only; omega,
    by dsimp only; constructor <;> intro <;> omega⟩
  rw [← hsave]
  exact List.mem_append_right _ (List.mem_singleton.mpr rfl)

/-- Witness for C4 (amended) at concrete clock samples 5 and 7. -/
theorem c4_witness :
    ∃ st' : Store, saveForecastsToDatabase [] "u1" 1 frFull 5 7 false = .ok st' ∧
      ∃ row : DbRow, ("u1", 1, row) ∈ st' ∧
        row.expires_at - row.generated_at = 86400 - (7 - 5) := by
  obtain ⟨st', hs⟩ : ∃ st', saveForecastsToDatabase [] "u1" 1 frFull 5 7 false
      = .ok st' := ⟨_, rfl⟩
  obtain ⟨row, hmem, _, _, hdiff, _, _⟩ :=
    c4_expiry_window [] "u1" 1 frFull 5 7 st' hs (by decide)
  exact ⟨st', hs, row, hmem, hdiff⟩

/-- C9: the delete-then-insert upsert is transactional per (tenant, product)
key: a successful second save leaves exactly one stored summary for the key,
equal to the second write (fields taken from the second payload and its
clock samples); with the write-failure oracle set, the save returns an error
and produces no store (the caller keeps its store — rollback), and inside the
per-product loop a failed save leaves the store unchanged and logs the error
scoped to that product. -/
theorem c9_transactional_upsert (store : Store) (uid : String) (pid : Nat)
    (fr1 fr2 : FRes) (t1 t2 t3 t4 : Int) (st1 st2 : Store)
    (h1 : saveForecastsToDatabase store uid pid fr1 t1 t2 false = .ok st1)
    (h2 : saveForecastsToDatabase st1 uid pid fr2 t3 t4 false = .ok st2) :
    (∃ row2 : DbRow,
      st2.filter (keyMatches uid pid) = [(uid, pid, row2)] ∧
      (fr2.forecasts.lookup 7).map HorizonRes.value = some row2.forecast_7d ∧
      (fr2.forecasts.lookup 30).map HorizonRes.value = some row2.forecast_30d ∧
      (fr2.forecasts.lookup 90).map HorizonRes.value = some row2.forecast_90d ∧
      (fr2.forecasts.lookup 365).map HorizonRes.value = some row2.forecast_365d ∧
      row2.trend_status = fr2.trend_status ∧
      row2.confidence_score = fr2.confidence_score ∧
      row2.generated_at = t4 ∧ row2.expires_at = t3 + 86400) ∧
    (∀ (st : Store) (fr : FRes) (u1 u2 : Int) (st' : Store),
      saveForecastsToDatabase st uid pid fr u1 u2 true ≠ .ok st') ∧
    (∀ (ffn : FitOracle) (env : Nat → SaveEnv)
       (acc : Store × List (Nat × PErr) × Nat) (p : Nat × List (Nat × Real))
       (fr : FRes) (e : PErr),
      ffn p.1 p.2 = .ok fr →
      saveForecastsToDatabase acc.1 uid p.1 fr (env p.1).t1 (env p.1).t2
          (env p.1).dbFail = .error e →
      runLoopStep uid ffn env acc p = (acc.1, acc.2.1 ++ [(p.1, e)], acc.2.2)) := by
  refine ⟨?_, ?_, ?_⟩
  · rcases h7 : fr2.forecasts.lookup 7 with _ | f7
    · rw [save_of_missing_key (Or.inl h7)] at h2
      exact Except.noConfusion h2
    rcases h30 : fr2.forecasts.lookup 30 with _ | f30
    · rw [save_of_missing_key (Or.inr (Or.inl h30))] at h2
      exact Except.noConfusion h2
    rcases h90 : fr2.forecasts.lookup 90 with _ | f90
    · rw [save_of_missing_key (Or.inr (Or.inr (Or.inl h90)))] at h2
      exact Except.noConfusion h2
    rcases h365 : fr2.forecasts.lookup 365 with _ | f365
    · rw [save_of_missing_key (Or.inr (Or.inr (Or.inr h365)))] at h2
      exact Except.noConfusion h2
    rw [save_of_all_keys h7 h30 h90 h365] at h2
    simp only [Bool.false_eq_true, if_false, Except.ok.injEq] at h2
    refine ⟨{ forecast_7d := f7.value, forecast_30d := f30.value,
              forecast_90d := f90.value, forecast_365d := f365.value,
              trend_status := fr2.trend_status,
              confidence_score := fr2.confidence_score,
              generated_at := t4, expires_at := t3 + 86400 },
      ?_, rfl, rfl, rfl, rfl, rfl, rfl, rfl, rfl⟩
    rw [← h2, List.filter_append, filter_of_filter_not (keyMatches uid pid) st1]
    have hkey : keyMatches uid pid
        (uid, pid,
          ({ forecast_7d := f7.value, forecast_30d := f30.value,
             forecast_90d := f90.value, forecast_365d := f365.value,
             trend_status := fr2.trend_status,
             confidence_score := fr2.confidence_score,
             generated_at := t4, expires_at := t3 + 86400 } : DbRow)) = true := by
      simp [keyMatches]
    simp [hkey]
  · intro st fr u1 u2 st' heq
    rcases h7 : fr.forecasts.lookup 7 with _ | f7
    · rw [save_of_missing_key (Or.inl h7)] at heq
      exact Except.noConfusion heq
    rcases h30 : fr.forecasts.lookup 30 with _ | f30
    · rw [save_of_missing_key (Or.inr (Or.inl h30))] at heq
      exact Except.noConfusion heq
    rcases h90 : fr.forecasts.lookup 90 with _ | f90
    · rw [save_of_missing_key (Or.inr (Or.inr (Or.inl h90)))] at heq
      exact Except.noConfusion heq
    rcases h365 : fr.forecasts.lookup 365 with _ | f365
    · rw [save_of_missing_key (Or.inr (Or.inr (Or.inr h365)))] at heq
      exact Except.noConfusion heq
    rw [save_of_all_keys h7 h30 h90 h365, if_pos rfl] at heq
    exact Except.noConfusion heq
  · intro ffn env acc p fr e hf hsv
    simp only [runLoopStep, hf, hsv]

/-- Witness for C9: two successive saves for the same key on an empty store
leave exactly one row, carrying the second payload's trend status. -/
theorem c9_witness :
    ∃ st1 st2 : Store,
      saveForecastsToDatabase [] "u1" 1 frFull 0 0 false = .ok st1 ∧
      saveForecastsToDatabase st1 "u1" 1 frFull2 10 11 false = .ok st2 ∧
      ∃ row2 : DbRow, st2.filter (keyMatches "u1" 1) = [("u1", 1, row2)] ∧
        row2.trend_status = frFull2.trend_status ∧ row2.generated_at = 11 := by
  obtain ⟨st1, hs1⟩ : ∃ st1, saveForecastsToDatabase [] "u1" 1 frFull 0 0 false
      = .ok st1 := ⟨_, rfl⟩
  obtain ⟨st2, hs2⟩ : ∃ st2, saveForecastsToDatabase st1 "u1" 1 frFull2 10 11 false
      = .ok st2 := by
    rcases hs1' : saveForecastsToDatabase [] "u1" 1 frFull 0 0 false with e | stx
    · rw [hs1'] at hs1
      exact Except.noConfusion hs1
    · rw [hs1'] at hs1
      cases hs1
      exact ⟨_, rfl⟩
  obtain ⟨⟨row2, hfil, _, _, _, _, hts, _, hgen, _⟩, _, _⟩ :=
    c9_transactional_upsert [] "u1" 1 frFull frFull2 0 0 10 11 st1 st2 hs1 hs2
  exact ⟨st1, st2, hs1, hs2, row2, hfil, hts.trans rfl, hgen⟩

lemma lookup_eq_none_of_not_mem {k : Nat} {l : List (Nat × β)}
    (h : k ∉ l.map Prod.fst) : List.lookup k l = none := by
  cases hk : List.lookup k l with
  | none => rfl
  | some v =>
    refine absurd ((lookup_isSome_iff_mem k l).mp ?_) h
    rw [hk]
    rfl

lemma lookup_isSome_of_mem {k : Nat} {l : List (Nat × β)}
    (h : k ∈ l.map Prod.fst) : ∃ v, List.lookup k l = some v := by
  have hs := (lookup_isSome_iff_mem k l).mpr h
  cases hk : List.lookup k l with
  | none =>
    rw [hk] at hs
    exact Bool.noConfusion hs
  | some v => exact ⟨v, rfl⟩

/-- Counterexample to C10's closing clause ("total **only** under the default
horizon set"): with the non-default horizon list `[7, 30, 90, 365, 14]` —
which contains 14, not a default horizon — every persistence lookup still
succeeds and the save completes. -/
theorem c10_counterexample :
    (14 ∈ [7, 30, 90, 365, 14] ∧ 14 ∉ [7, 30, 90, 365]) ∧
    ∃ fr : FRes,
      trainAndForecast constModel twoPointSeries [7, 30, 90, 365, 14] = some fr ∧
      ∃ st' : Store, saveForecastsToDatabase [] "u1" 1 fr 0 0 false = .ok st' := by
  exact ⟨⟨by decide, by decide⟩, _, rfl, _, rfl⟩

/-- C10 (amended): persistence reads exactly the keys `forecast_7d`,
`forecast_30d`, `forecast_90d` and `forecast_365d` from the result of
`train_and_forecast`, whose keys are exactly `forecast_periods`; whenever
`forecast_periods` does not include all of 7, 30, 90 and 365 the persistence
step raises a key lookup error, and whenever it includes all four (the
default configuration in particular) every lookup succeeds and the save can
complete, so the lookups are total precisely when the horizon set contains
the default {7, 30, 90, 365}. -/
theorem c10_persistence_requires_default_horizons (m : Model)
    (series : List (Nat × Rat)) (periods : List Nat) (fr : FRes)
    (h : trainAndForecast m series periods = some fr) :
    fr.forecasts.map Prod.fst = periods ∧
    (¬(7 ∈ periods ∧ 30 ∈ periods ∧ 90 ∈ periods ∧ 365 ∈ periods) →
      ∀ (store : Store) (uid : String) (pid : Nat) (t1 t2 : Int) (db : Bool),
        saveForecastsToDatabase store uid pid fr t1 t2 db = .error .keyDbError) ∧
    ((7 ∈ periods ∧ 30 ∈ periods ∧ 90 ∈ periods ∧ 365 ∈ periods) →
      ∀ (store : Store) (uid : String) (pid : Nat) (t1 t2 : Int),
        ∃ st', saveForecastsToDatabase store uid pid fr t1 t2 false = .ok st') := by
  cases hl : periods.getLast? with
  | none =>
    simp only [trainAndForecast, hl] at h
    exact Option.noConfusion h
  | some lastP =>
    simp only [trainAndForecast, hl] at h
    cases h
    have hfst : ((periods.map (fun H => (H, horizonEntry m series H))).map Prod.fst)
        = periods := by
      rw [List.map_map]
      exact List.map_id'' (fun x => rfl) periods
    refine ⟨hfst, ?_, ?_⟩
    · intro hnot store uid pid t1 t2 db
      apply save_of_missing_key
      by_cases m7 : 7 ∈ periods
      · by_cases m30 : 30 ∈ periods
        · by_cases m90 : 90 ∈ periods
          · by_cases m365 : 365 ∈ periods
            · exact absurd ⟨m7, m30, m90, m365⟩ hnot
            · exact Or.inr (Or.inr (Or.inr
                (lookup_eq_none_of_not_mem (by rw [hfst]; exact m365))))
          · exact Or.inr (Or.inr (Or.inl
              (lookup_eq_none_of_not_mem (by rw [hfst]; exact m90))))
        · exact Or.inr (Or.inl
            (lookup_eq_none_of_not_mem (by rw [hfst]; exact m30)))
      · exact Or.inl (lookup_eq_none_of_not_mem (by rw [hfst]; exact m7))
    · rintro ⟨m7, m30, m90, m365⟩ store uid pid t1 t2
      obtain ⟨f7, h7⟩ := lookup_isSome_of_mem (l := periods.map
        (fun H => (H, horizonEntry m series H))) (by rw [hfst]; exact m7)
      obtain ⟨f30, h30⟩ := lookup_isSome_of_mem (l := periods.map
        (fun H => (H, horizonEntry m series H))) (by rw [hfst]; exact m30)
      obtain ⟨f90, h90⟩ := lookup_isSome_of_mem (l := periods.map
        (fun H => (H, horizonEntry m series H))) (by rw [hfst]; exact m90)
      obtain ⟨f365, h365⟩ := lookup_isSome_of_mem (l := periods.map
        (fun H => (H, horizonEntry m series H))) (by rw [hfst]; exact m365)
      cases hsv : saveForecastsToDatabase store uid pid
          { forecasts := periods.map (fun H => (H, horizonEntry m series H)),
            trend_status := _, confidence_score := _, mae := _, mape := _ }
          t1 t2 false with
      | error e =>
        rw [save_of_all_keys h7 h30 h90 h365] at hsv
        simp at hsv
      | ok st' => exact ⟨st', rfl⟩

/-- Witness for C10 (amended): with `forecast_periods = [1]` the result lacks
the four default keys and every save attempt raises the key lookup error;
with the default periods all four lookups succeed. -/
theorem c10_witness :
    ∃ fr : FRes, trainAndForecast constModel twoPointSeries [1] = some fr ∧
      ¬(7 ∈ [1] ∧ 30 ∈ [1] ∧ 90 ∈ [1] ∧ 365 ∈ [1]) ∧
      saveForecastsToDatabase [] "u1" 1 fr 0 0 false = .error .keyDbError := by
  obtain ⟨fr, hfr⟩ : ∃ fr, trainAndForecast constModel twoPointSeries [1] = some fr :=
    ⟨_, rfl⟩
  have h := c10_persistence_requires_default_horizons constModel twoPointSeries [1]
    fr hfr
  exact ⟨fr, hfr, by decide, h.2.1 (by decide) [] "u1" 1 0 0 false⟩

lemma sampleVar_pair_same (x : Real) : sampleVar [x, x] = 0 := by
  have hm : listMean [x, x] = x := by
    rw [listMean]
    show (x + (x + 0)) / ((2 : Nat) : Real) = x
    push_cast
    ring
  rw [sampleVar, hm]
  show ((x - x) ^ 2 + ((x - x) ^ 2 + 0)) / (((2 : Nat) : Real) - 1) = 0
  rw [sub_self]
  norm_num

/-- Counterexample to C7 as stated: the cleaner never enforces non-negative
quantities; the two-point group `recsNeg` with quantity -1 on both dates
passes through cleaning unchanged (standard deviation 0, so no clipping), and
the cleaned series contains the negative value -1. -/
theorem c7_counterexample :
    cleanGroup recsNeg = some [(0, ((-1 : Rat) : Real)), (1, ((-1 : Rat) : Real))] ∧
    ((-1 : Rat) : Real) < 0 := by
  constructor
  · have h1 : cleanGroup recsNeg
        = some (outlierStep [(0, ((-1 : Rat) : Real)), (1, ((-1 : Rat) : Real))]) := rfl
    rw [h1]
    have hstd : sampleStd ([(0, ((-1 : Rat) : Real)),
        (1, ((-1 : Rat) : Real))].map (·.2)) = 0 := by
      show sampleStd [((-1 : Rat) : Real), ((-1 : Rat) : Real)] = 0
      rw [sampleStd, sampleVar_pair_same, Real.sqrt_zero]
    simp only [outlierStep, hstd]
    rw [if_neg (lt_irrefl 0)]
  · norm_num

/-- C7 (amended): provided every input quantity of the group is non-negative
(nulls count as 0), every value of the cleaned series is ≥ 0; and
unconditionally, whenever the standard deviation of a series' values is
positive, the outlier step preserves the length (values are capped, never
dropped), caps every value at `mean + 3*std`, and leaves every value not
exceeding that threshold in place. -/
theorem c7_cleaned_values_bounds (g : List SalesRecord)
    (hnn : ∀ r ∈ g, 0 ≤ r.quantity_sold.getD 0) :
    (∀ s, cleanGroup g = some s → ∀ p ∈ s, 0 ≤ p.2) ∧
    (∀ t : List (Nat × Real), sampleStd (t.map (·.2)) > 0 →
      (outlierStep t).length = t.length ∧
      (∀ p ∈ outlierStep t,
        p.2 ≤ listMean (t.map (·.2)) + 3 * sampleStd (t.map (·.2))) ∧
      (∀ p ∈ t, p.2 ≤ listMean (t.map (·.2)) + 3 * sampleStd (t.map (·.2)) →
        p ∈ outlierStep t)) := by
  constructor
  · intro s hs p hp
    simp only [cleanGroup] at hs
    split_ifs at hs with hlen
    cases hs
    refine outlierStep_nonneg ?_ p hp
    intro q hq
    rcases List.mem_map.mp hq with ⟨q', hq', rfl⟩
    dsimp only
    rcases List.mem_map.mp hq' with ⟨r, hr, rfl⟩
    dsimp only
    exact_mod_cast hnn r (mem_dropDuplicatesSortValues hr)
  · intro t hstd
    exact ⟨length_outlierStep t, outlierStep_le_threshold hstd,
      outlierStep_mem_of_le hstd⟩

/-- Witness for C7 (amended): the non-negative group `recsSkip`, and the
series with values 0, 3, 6 (standard deviation 3 > 0) for the outlier step. -/
theorem c7_witness :
    (∀ r ∈ recsSkip, 0 ≤ r.quantity_sold.getD 0) ∧
    sampleStd (tOut.map (·.2)) > 0 ∧
    (outlierStep tOut).length = tOut.length ∧
    (∀ p ∈ outlierStep tOut,
      p.2 ≤ listMean (tOut.map (·.2)) + 3 * sampleStd (tOut.map (·.2))) := by
  have hnn : ∀ r ∈ recsSkip, 0 ≤ r.quantity_sold.getD 0 := by
    intro r hr
    fin_cases hr <;> norm_num
  have hvar : sampleVar (tOut.map (·.2)) = 9 := by
    show sampleVar [(0 : Real), 3, 6] = 9
    have hm : listMean [(0 : Real), 3, 6] = 3 := by
      rw [listMean]
      show ((0 : Real) + (3 + (6 + 0))) / ((3 : Nat) : Real) = 3
      push_cast
      ring
    rw [sampleVar, hm]
    show (((0 : Real) - 3) ^ 2 + ((3 - 3) ^ 2 + ((6 - 3) ^ 2 + 0)))
        / (((3 : Nat) : Real) - 1) = 9
    norm_num
  have hstd : sampleStd (tOut.map (·.2)) > 0 := by
    rw [sampleStd, hvar]
    exact Real.sqrt_pos.mpr (by norm_num)
  obtain ⟨_, h2⟩ := c7_cleaned_values_bounds recsSkip hnn
  obtain ⟨hlen, hbound, _⟩ := h2 tOut hstd
  exact ⟨hnn, hstd, hlen, hbound⟩
